import Mathlib

/-!
# Link URL codec of `internal/provider/link.go`

A shallow embedding of `newLink`, `linkURL` and `parseLinkURL`.

Modelling conventions.

* A Go `string` is a Lean `String`.  The only characters the code inspects are
  the ASCII characters `/` and newline, which never occur inside a multi-byte
  UTF-8 sequence, so reading the text character by character agrees with
  reading it byte by byte.
* A Go pointer that may be `nil` is an `Option`.
* A Go function either returns its tuple of results or panics (nil pointer
  dereference, index out of range): `Exec`.
* A Go `error` is `Option String`: `none` is the `nil` error and `some msg` is
  `errors.New(msg)`.
-/

namespace Provider

/-! ## Data model -/

/-- Modelled from the spec: the declaration of
`sharedmodels.HashicorpCloudLocationRegion` is in the cloud SDK, outside the
source tree; the fields are the ones `link.go` reads and writes. -/
structure HashicorpCloudLocationRegion where
  Provider : String
  Region : String
deriving DecidableEq, Repr

/-- Modelled from the spec: the declaration of
`sharedmodels.HashicorpCloudLocationLocation` is in the cloud SDK, outside the
source tree.  `Region` is a pointer in the source (`parseLinkURL` stores
`&sharedmodels.HashicorpCloudLocationRegion{...}` in it), hence optional. -/
structure HashicorpCloudLocationLocation where
  OrganizationID : String
  ProjectID : String
  Region : Option HashicorpCloudLocationRegion
deriving DecidableEq, Repr

/-- Modelled from the spec: the declaration of
`sharedmodels.HashicorpCloudLocationLink` is in the cloud SDK, outside the
source tree.  The Go field `Type` is written `Type_`; `Location` is a pointer
in the source (`linkURL` compares it with `nil`), hence optional. -/
structure HashicorpCloudLocationLink where
  Type_ : String
  ID : String
  Location : Option HashicorpCloudLocationLocation
deriving DecidableEq, Repr

/-- Outcome of running a Go function: it returns its results or it panics. -/
inductive Exec (α : Type) where
  | ret (v : α)
  | panic
deriving DecidableEq, Repr

/-- Sequencing of two computations; a panic in the first one propagates. -/
def Exec.bind {α β : Type} (x : Exec α) (f : α → Exec β) : Exec β :=
  match x with
  | .ret v => f v
  | .panic => .panic

/-! ## `newLink` -/

/-- The function `newLink` of `link.go`: builds a link from its three parts. -/
def newLink (loc : Option HashicorpCloudLocationLocation) (svcType : String) (id : String) :
    Option HashicorpCloudLocationLink :=
  some { Type_ := svcType, ID := id, Location := loc }

/-! ## `linkURL` -/

/-- The call `fmt.Sprintf("/organization/%s/project/%s/provider/%s/region/%s/%s/%s", ...)`
of `linkURL`: the verb `%s` copies its string argument unchanged. -/
def sprintfLinkURL (org proj prov reg typ id : String) : String :=
  "/organization/" ++ org ++ "/project/" ++ proj ++ "/provider/" ++ prov ++
    "/region/" ++ reg ++ "/" ++ typ ++ "/" ++ id

/-- The function `linkURL` of `link.go`.  The result is the pair
`(string, error)`; reading `l.Location.Region.Provider` through a nil `Region`
pointer panics. -/
def linkURL (l : Option HashicorpCloudLocationLink) : Exec (String × Option String) :=
  match l with
  | none => .ret ("", some "nil link")
  | some l =>
    match l.Location with
    | none => .ret ("", some "link missing Location")
    | some loc =>
      if loc.ProjectID = "" then .ret ("", some "link missing project ID")
      else if loc.OrganizationID = "" then .ret ("", some "link missing organization ID")
      else
        match loc.Region with
        | none => .panic
        | some r =>
          if r.Provider = "" then .ret ("", some "link missing provider")
          else if r.Region = "" then .ret ("", some "link missing region")
          else if l.Type_ = "" then .ret ("", some "link missing resource type")
          else
            let id := l.ID
            if id = "" then .ret ("", some "link missing resource ID")
            else
              .ret (sprintfLinkURL loc.OrganizationID loc.ProjectID r.Provider r.Region
                l.Type_ id, none)

/-! ## The regular expression of `parseLinkURL` -/

/-- One piece of an anchored pattern `^ ... $` of Go `regexp` (RE2) syntax: a
run of literal characters, or `.+`, one or more characters of the class `.`.
Without the flag `s` the class `.` holds every character but the newline, so
it holds `/`; without the flag `m` the anchors `^` and `$` match only at the
two ends of the text. -/
inductive Item where
  | lit (s : String)
  | anyPlus
deriving DecidableEq, Repr

/-- Match the literal `l` at the head of the text, then continue with `k`. -/
def matchLit : List Char → (List Char → Bool) → List Char → Bool
  | [], k, s => k s
  | _ :: _, _, [] => false
  | c :: cs, k, d :: s => decide (c = d) && matchLit cs k s

/-- Match `.+` at the head of the text, then continue with `k`: consume one
character that is not a newline and either stop there or consume more. -/
def matchAnyPlus (k : List Char → Bool) : List Char → Bool
  | [] => false
  | c :: s => decide (c ≠ '\n') && (k s || matchAnyPlus k s)

/-- Match the pieces in sequence; after the last piece the text must be over
(the pattern ends in `$`, and starts with `^`, so the whole text is matched). -/
def matchItems : List Item → List Char → Bool
  | [] => fun s => s.isEmpty
  | .lit l :: rest => matchLit l.data (matchItems rest)
  | .anyPlus :: rest => matchAnyPlus (matchItems rest)

/-- The call `regexp.MatchString(pattern, s)` for an anchored pattern; the
error result is `nil` for a pattern that compiles, and the source drops it. -/
def regexpMatchString (pattern : List Item) (s : String) : Bool :=
  matchItems pattern s.data

/-- The pattern `^/organization/.+/project/.+/provider/.+/region/.+/.+/.+$`. -/
def linkPattern : List Item :=
  [.lit "/organization/", .anyPlus, .lit "/project/", .anyPlus, .lit "/provider/", .anyPlus,
   .lit "/region/", .anyPlus, .lit "/", .anyPlus, .lit "/", .anyPlus]

/-! ## `strings.Split` -/

/-- Split a text at every occurrence of the character `sep`; a text with `n`
occurrences gives `n + 1` pieces, the empty text gives one empty piece. -/
def splitChars (sep : Char) : List Char → List (List Char)
  | [] => [[]]
  | c :: cs =>
    if c = sep then [] :: splitChars sep cs
    else
      match splitChars sep cs with
      | [] => [[c]]
      | h :: t => (c :: h) :: t

/-- The call `strings.Split(s, sep)` for a separator of one character. -/
def stringsSplit (s : String) (sep : Char) : List String :=
  (splitChars sep s.data).map String.mk

/-- The index expression `components[i]`: panics when `i` is out of range. -/
def index (components : List String) (i : Nat) : Exec String :=
  match components.get? i with
  | some c => .ret c
  | none => .panic

/-! ## `parseLinkURL` -/

/-- The message of the error `parseLinkURL` returns. -/
def formatError : String :=
  "url is not in the correct format: /organization/\x7borg_id\x7d/project/\x7bproject_id\x7d/provider/\x7bprovider\x7d/region/\x7bregion\x7d/\x7btype\x7d/\x7bid\x7d"

/-- The function `parseLinkURL` of `link.go`.  The result is the pair
`(*Link, error)`. -/
def parseLinkURL (urn : String) : Exec (Option HashicorpCloudLocationLink × Option String) :=
  let matched := regexpMatchString linkPattern urn
  if !matched then .ret (none, some formatError)
  else
    let components := stringsSplit urn '/'
    (index components 9).bind fun typ =>
    (index components 10).bind fun id =>
    (index components 2).bind fun org =>
    (index components 4).bind fun proj =>
    (index components 6).bind fun prov =>
    (index components 8).bind fun reg =>
    .ret (some { Type_ := typ, ID := id,
                 Location := some { OrganizationID := org, ProjectID := proj,
                                    Region := some { Provider := prov, Region := reg } } }, none)


/-! ## The template of a link URL -/

/-- A segment that `.+` matches: one or more characters, none a newline. -/
def Seg (u : List Char) : Prop := u ≠ [] ∧ '\n' ∉ u

/-- The text of a link URL with the six segments `a` .. `f`. -/
def templateChars (a b c d e f : List Char) : List Char :=
  "/organization/".data ++ (a ++ ("/project/".data ++ (b ++ ("/provider/".data ++
    (c ++ ("/region/".data ++ (d ++ ("/".data ++ (e ++ ("/".data ++ f))))))))))

/-! ## Inputs used in the examples -/

/-- The link of the literal example of the specification. -/
def exampleLink : HashicorpCloudLocationLink :=
  { Type_ := "cluster", ID := "c1",
    Location := some { OrganizationID := "org1", ProjectID := "proj1",
                       Region := some { Provider := "aws", Region := "us-west-2" } } }

/-- A link with a present location and region, from its six leaf fields. -/
def fullLink (org proj prov reg typ id : String) : HashicorpCloudLocationLink :=
  { Type_ := typ, ID := id,
    Location := some { OrganizationID := org, ProjectID := proj,
                       Region := some { Provider := prov, Region := reg } } }

/-- A location with non-empty IDs and a nil `Region` pointer. -/
def nilRegionLocation : HashicorpCloudLocationLocation :=
  { OrganizationID := "org1", ProjectID := "proj1", Region := none }

/-- A link with non-empty fields whose location has a nil `Region` pointer. -/
def nilRegionLink : HashicorpCloudLocationLink :=
  { Type_ := "cluster", ID := "c1",
    Location := some { OrganizationID := "org1", ProjectID := "proj1", Region := none } }

/-! ## The specification of the validation order -/

/-- The eight checks of the specification of `Serialize`, in its order, each
with its message.  A check fails (`true`) when what it looks at is absent or
empty; a field of an absent structure is absent. -/
def specChecks (l : Option HashicorpCloudLocationLink) : List (Bool × String) :=
  let loc := l.bind (·.Location)
  let reg := loc.bind (·.Region)
  let missing (x : Option String) : Bool := x.getD "" == ""
  [ (l.isNone, "nil link"),
    (loc.isNone, "link missing Location"),
    (missing (loc.map (·.ProjectID)), "link missing project ID"),
    (missing (loc.map (·.OrganizationID)), "link missing organization ID"),
    (missing (reg.map (·.Provider)), "link missing provider"),
    (missing (reg.map (·.Region)), "link missing region"),
    (missing (l.map (·.Type_)), "link missing resource type"),
    (missing (l.map (·.ID)), "link missing resource ID") ]

/-- The message of the first failing check of the specification, if any. -/
def specFirstFailure (l : Option HashicorpCloudLocationLink) : Option String :=
  ((specChecks l).find? (·.1)).map (·.2)

/-! ## Lemmas on the pattern matcher -/

theorem matchLit_iff (l : List Char) (k : List Char → Bool) (s : List Char) :
    matchLit l k s = true ↔ ∃ v, s = l ++ v ∧ k v = true := by
  induction l generalizing s with
  | nil => simp [matchLit]
  | cons c cs ih =>
    cases s with
    | nil => simp [matchLit]
    | cons d s =>
      simp only [matchLit, Bool.and_eq_true, decide_eq_true_eq, ih, List.cons_append,
        List.cons.injEq]
      constructor
      · rintro ⟨rfl, v, rfl, hk⟩
        exact ⟨v, ⟨rfl, rfl⟩, hk⟩
      · rintro ⟨v, ⟨rfl, rfl⟩, hk⟩
        exact ⟨rfl, v, rfl, hk⟩

theorem matchAnyPlus_iff (k : List Char → Bool) (s : List Char) :
    matchAnyPlus k s = true ↔
      ∃ u v, s = u ++ v ∧ u ≠ [] ∧ '\n' ∉ u ∧ k v = true := by
  induction s with
  | nil => simp [matchAnyPlus]
  | cons c s ih =>
    simp only [matchAnyPlus, Bool.and_eq_true, decide_eq_true_eq, Bool.or_eq_true, ih]
    constructor
    · rintro ⟨hc, h | ⟨u, v, rfl, -, hu, hk⟩⟩
      · exact ⟨[c], s, rfl, by simp, by simpa using Ne.symm hc, h⟩
      · refine ⟨c :: u, v, rfl, by simp, ?_, hk⟩
        simp only [List.mem_cons, not_or]
        exact ⟨Ne.symm hc, hu⟩
    · rintro ⟨u, v, h, hne, hu, hk⟩
      cases u with
      | nil => exact absurd rfl hne
      | cons x u =>
        simp only [List.cons_append, List.cons.injEq] at h
        obtain ⟨rfl, rfl⟩ := h
        simp only [List.mem_cons, not_or] at hu
        refine ⟨Ne.symm hu.1, ?_⟩
        cases u with
        | nil => exact Or.inl (by simpa using hk)
        | cons y u => exact Or.inr ⟨y :: u, v, rfl, by simp, hu.2, hk⟩

/-- The pattern accepts exactly the texts of the template whose six segments
are non-empty and free of newlines (they may contain `/`). -/
theorem matchItems_linkPattern_iff (s : List Char) :
    matchItems linkPattern s = true ↔
      ∃ a b c d e f, Seg a ∧ Seg b ∧ Seg c ∧ Seg d ∧ Seg e ∧ Seg f ∧
        s = templateChars a b c d e f := by
  simp only [linkPattern, matchItems, matchLit_iff, matchAnyPlus_iff, List.isEmpty_iff,
    templateChars, Seg]
  constructor
  · rintro ⟨_, rfl, a, _, rfl, ha, ha', _, rfl, b, _, rfl, hb, hb', _, rfl, c, _, rfl, hc, hc',
      _, rfl, d, _, rfl, hd, hd', _, rfl, e, _, rfl, he, he', _, rfl, f, _, rfl, hf, hf', rfl⟩
    exact ⟨a, b, c, d, e, f, ⟨ha, ha'⟩, ⟨hb, hb'⟩, ⟨hc, hc'⟩, ⟨hd, hd'⟩, ⟨he, he'⟩, ⟨hf, hf'⟩,
      by simp⟩
  · rintro ⟨a, b, c, d, e, f, ⟨ha, ha'⟩, ⟨hb, hb'⟩, ⟨hc, hc'⟩, ⟨hd, hd'⟩, ⟨he, he'⟩, ⟨hf, hf'⟩,
      rfl⟩
    exact ⟨_, rfl, a, _, rfl, ha, ha', _, rfl, b, _, rfl, hb, hb', _, rfl, c, _, rfl, hc, hc',
      _, rfl, d, _, rfl, hd, hd', _, rfl, e, _, rfl, he, he', _, rfl, f, [], by simp, hf, hf',
      rfl⟩

/-! ## Lemmas on `strings.Split` -/

theorem splitChars_ne_nil (sep : Char) (s : List Char) : splitChars sep s ≠ [] := by
  cases s with
  | nil => simp [splitChars]
  | cons c cs =>
    unfold splitChars
    split
    · simp
    · split <;> simp

theorem splitChars_append_sep (sep : Char) (a rest : List Char) (h : sep ∉ a) :
    splitChars sep (a ++ sep :: rest) = a :: splitChars sep rest := by
  induction a with
  | nil => simp [splitChars]
  | cons c cs ih =>
    simp only [List.mem_cons, not_or] at h
    have hc : c ≠ sep := Ne.symm h.1
    simp [splitChars, hc, ih h.2]

theorem splitChars_of_not_mem (sep : Char) (a : List Char) (h : sep ∉ a) :
    splitChars sep a = [a] := by
  induction a with
  | nil => simp [splitChars]
  | cons c cs ih =>
    simp only [List.mem_cons, not_or] at h
    have hc : c ≠ sep := Ne.symm h.1
    simp [splitChars, hc, ih h.2]

theorem length_splitChars (sep : Char) (s : List Char) :
    (splitChars sep s).length = s.count sep + 1 := by
  induction s with
  | nil => simp [splitChars]
  | cons c cs ih =>
    unfold splitChars
    by_cases hc : c = sep
    · subst hc
      simp [ih]
    · have hcount : List.count sep (c :: cs) = List.count sep cs := by
        simp [List.count_cons, hc]
      rw [if_neg hc, hcount, ← ih]
      cases h : splitChars sep cs with
      | nil => exact absurd h (splitChars_ne_nil sep cs)
      | cons x t => simp

/-! ## Lemmas on the template -/

theorem data_ne_nil {s : String} (h : s ≠ "") : s.data ≠ [] := by
  intro hd
  exact h (String.ext hd)

theorem sprintfLinkURL_data (org proj prov reg typ id : String) :
    (sprintfLinkURL org proj prov reg typ id).data =
      templateChars org.data proj.data prov.data reg.data typ.data id.data := by
  simp [sprintfLinkURL, templateChars, String.data_append, List.append_assoc]

theorem splitChars_templateChars (a b c d e f : List Char)
    (ha : '/' ∉ a) (hb : '/' ∉ b) (hc : '/' ∉ c) (hd : '/' ∉ d) (he : '/' ∉ e) (hf : '/' ∉ f) :
    splitChars '/' (templateChars a b c d e f) =
      [[], "organization".data, a, "project".data, b, "provider".data, c, "region".data, d,
        e, f] := by
  have h0 : '/' ∉ ([] : List Char) := by simp
  have h1 : '/' ∉ "organization".data := by decide
  have h2 : '/' ∉ "project".data := by decide
  have h3 : '/' ∉ "provider".data := by decide
  have h4 : '/' ∉ "region".data := by decide
  have e : templateChars a b c d e f =
      [] ++ '/' :: ("organization".data ++ '/' :: (a ++ '/' :: ("project".data ++ '/' ::
        (b ++ '/' :: ("provider".data ++ '/' :: (c ++ '/' :: ("region".data ++ '/' ::
          (d ++ '/' :: (e ++ '/' :: f))))))))) := by
    simp [templateChars]
  rw [e, splitChars_append_sep _ _ _ h0, splitChars_append_sep _ _ _ h1,
    splitChars_append_sep _ _ _ ha, splitChars_append_sep _ _ _ h2,
    splitChars_append_sep _ _ _ hb, splitChars_append_sep _ _ _ h3,
    splitChars_append_sep _ _ _ hc, splitChars_append_sep _ _ _ h4,
    splitChars_append_sep _ _ _ hd, splitChars_append_sep _ _ _ he,
    splitChars_of_not_mem _ _ hf]

theorem count_templateChars (a b c d e f : List Char) :
    (templateChars a b c d e f).count '/' =
      10 + a.count '/' + b.count '/' + c.count '/' + d.count '/' + e.count '/' +
        f.count '/' := by
  have h1 : "/organization/".data.count '/' = 2 := by decide
  have h2 : "/project/".data.count '/' = 2 := by decide
  have h3 : "/provider/".data.count '/' = 2 := by decide
  have h4 : "/region/".data.count '/' = 2 := by decide
  have h5 : "/".data.count '/' = 1 := by decide
  simp only [templateChars, List.count_append, h1, h2, h3, h4, h5]
  omega

/-- A text the pattern accepts has at least ten `/`. -/
theorem count_of_match (s : String) (h : regexpMatchString linkPattern s = true) :
    10 ≤ s.data.count '/' := by
  obtain ⟨a, b, c, d, e, f, -, -, -, -, -, -, hs⟩ := (matchItems_linkPattern_iff s.data).1 h
  rw [hs, count_templateChars]
  omega

theorem length_stringsSplit (s : String) :
    (stringsSplit s '/').length = s.data.count '/' + 1 := by
  simp [stringsSplit, length_splitChars]

/-! ## Lemmas on `parseLinkURL` -/

theorem parseLinkURL_of_not_match (s : String) (h : regexpMatchString linkPattern s = false) :
    parseLinkURL s = .ret (none, some formatError) := by
  simp [parseLinkURL, h]

theorem parseLinkURL_of_split (s : String) (c0 c1 c2 c3 c4 c5 c6 c7 c8 c9 c10 : String)
    (rest : List String) (h : regexpMatchString linkPattern s = true)
    (hs : stringsSplit s '/' = c0 :: c1 :: c2 :: c3 :: c4 :: c5 :: c6 :: c7 :: c8 :: c9 ::
      c10 :: rest) :
    parseLinkURL s = .ret (some {
        Type_ := c9, ID := c10,
        Location := some { OrganizationID := c2, ProjectID := c4,
                           Region := some { Provider := c6, Region := c8 } } }, none) := by
  simp [parseLinkURL, h, hs, index, Exec.bind]

theorem exists_eleven {α : Type} (l : List α) (h : 11 ≤ l.length) :
    ∃ c0 c1 c2 c3 c4 c5 c6 c7 c8 c9 c10 rest,
      l = c0 :: c1 :: c2 :: c3 :: c4 :: c5 :: c6 :: c7 :: c8 :: c9 :: c10 :: rest := by
  rcases l with _ | ⟨c0, _ | ⟨c1, _ | ⟨c2, _ | ⟨c3, _ | ⟨c4, _ | ⟨c5, _ | ⟨c6, _ | ⟨c7,
    _ | ⟨c8, _ | ⟨c9, _ | ⟨c10, rest⟩⟩⟩⟩⟩⟩⟩⟩⟩⟩⟩ <;> simp at h
  exact ⟨c0, c1, c2, c3, c4, c5, c6, c7, c8, c9, c10, rest, rfl⟩

/-- A text the pattern accepts splits into at least eleven components, so no
index expression of `parseLinkURL` is out of range and a link is returned. -/
theorem parseLinkURL_of_match (s : String) (h : regexpMatchString linkPattern s = true) :
    ∃ c0 c1 c2 c3 c4 c5 c6 c7 c8 c9 c10 rest,
      stringsSplit s '/' = c0 :: c1 :: c2 :: c3 :: c4 :: c5 :: c6 :: c7 :: c8 :: c9 ::
        c10 :: rest ∧
      parseLinkURL s = .ret (some {
        Type_ := c9, ID := c10,
        Location := some { OrganizationID := c2, ProjectID := c4,
                           Region := some { Provider := c6, Region := c8 } } }, none) := by
  have hlen : 11 ≤ (stringsSplit s '/').length := by
    have := count_of_match s h
    rw [length_stringsSplit]
    omega
  obtain ⟨c0, c1, c2, c3, c4, c5, c6, c7, c8, c9, c10, rest, hs⟩ := exists_eleven _ hlen
  exact ⟨c0, c1, c2, c3, c4, c5, c6, c7, c8, c9, c10, rest, hs,
    parseLinkURL_of_split s c0 c1 c2 c3 c4 c5 c6 c7 c8 c9 c10 rest h hs⟩

/-- Parsing the text `linkURL` builds from six segments that are non-empty and
contain neither `/` nor a newline gives back the six segments. -/
theorem parseLinkURL_sprintfLinkURL (org proj prov reg typ id : String)
    (ho : org ≠ "") (hp : proj ≠ "") (hv : prov ≠ "") (hr : reg ≠ "") (ht : typ ≠ "")
    (hi : id ≠ "")
    (so : '/' ∉ org.data) (sp : '/' ∉ proj.data) (sv : '/' ∉ prov.data) (sr : '/' ∉ reg.data)
    (st : '/' ∉ typ.data) (si : '/' ∉ id.data)
    (no : '\n' ∉ org.data) (np : '\n' ∉ proj.data) (nv : '\n' ∉ prov.data)
    (nr : '\n' ∉ reg.data) (nt : '\n' ∉ typ.data) (ni : '\n' ∉ id.data) :
    parseLinkURL (sprintfLinkURL org proj prov reg typ id) =
      .ret (some {
        Type_ := typ, ID := id,
        Location := some { OrganizationID := org, ProjectID := proj,
                           Region := some { Provider := prov, Region := reg } } }, none) := by
  have hm : regexpMatchString linkPattern (sprintfLinkURL org proj prov reg typ id) = true := by
    unfold regexpMatchString
    rw [matchItems_linkPattern_iff]
    exact ⟨org.data, proj.data, prov.data, reg.data, typ.data, id.data,
      ⟨data_ne_nil ho, no⟩, ⟨data_ne_nil hp, np⟩, ⟨data_ne_nil hv, nv⟩, ⟨data_ne_nil hr, nr⟩,
      ⟨data_ne_nil ht, nt⟩, ⟨data_ne_nil hi, ni⟩, sprintfLinkURL_data _ _ _ _ _ _⟩
  have hs : stringsSplit (sprintfLinkURL org proj prov reg typ id) '/' =
      ["", "organization", org, "project", proj, "provider", prov, "region", reg, typ, id] := by
    unfold stringsSplit
    rw [sprintfLinkURL_data, splitChars_templateChars _ _ _ _ _ _ so sp sv sr st si]
    rfl
  exact parseLinkURL_of_split _ _ _ _ _ _ _ _ _ _ _ _ [] hm hs

theorem linkURL_of_populated (org proj prov reg typ id : String)
    (ho : org ≠ "") (hp : proj ≠ "") (hv : prov ≠ "") (hr : reg ≠ "") (ht : typ ≠ "")
    (hi : id ≠ "") :
    linkURL (some {
        Type_ := typ, ID := id,
        Location := some { OrganizationID := org, ProjectID := proj,
                           Region := some { Provider := prov, Region := reg } } }) =
      .ret (sprintfLinkURL org proj prov reg typ id, none) := by
  simp [linkURL, ho, hp, hv, hr, ht, hi]

/-! ## Claims -/

/-- C1 (the code at the failing input): the link with organization `org1`,
project `proj1`, provider `aws`, region `us-west-2`, type `cluster` and ID
`c`, newline, `1` has six non-empty leaf fields without `/`; `linkURL` succeeds
on it with no error, and `parseLinkURL` rejects the very string `linkURL`
returned, because the segment class `.+` of the pattern does not match the
newline in the resource ID. -/
theorem roundtrip_fails_on_newline :
    (∀ x ∈ ["org1", "proj1", "aws", "us-west-2", "cluster", "c\n1"], x ≠ "" ∧ '/' ∉ x.data) ∧
    linkURL (some (fullLink "org1" "proj1" "aws" "us-west-2" "cluster" "c\n1")) =
      .ret ("/organization/org1/project/proj1/provider/aws/region/us-west-2/cluster/c\n1",
        none) ∧
    parseLinkURL "/organization/org1/project/proj1/provider/aws/region/us-west-2/cluster/c\n1" =
      .ret (none, some formatError) := by
  decide

/-- C2: for every link with a present location (and region) whose six leaf
fields are non-empty, `linkURL` returns no error and the string
`/organization/ORG/project/PROJ/provider/PROV/region/REG/TYPE/ID`, the fields
being copied unchanged. -/
theorem linkURL_format (L : HashicorpCloudLocationLink)
    (loc : HashicorpCloudLocationLocation) (r : HashicorpCloudLocationRegion)
    (hloc : L.Location = some loc) (hreg : loc.Region = some r)
    (h : ∀ x ∈ [loc.OrganizationID, loc.ProjectID, r.Provider, r.Region, L.Type_, L.ID],
      x ≠ "") :
    linkURL (some L) =
      .ret ("/organization/" ++ loc.OrganizationID ++ "/project/" ++ loc.ProjectID ++
        "/provider/" ++ r.Provider ++ "/region/" ++ r.Region ++ "/" ++ L.Type_ ++ "/" ++ L.ID,
        none) := by
  obtain ⟨typ, id, _⟩ := L
  obtain ⟨org, proj, _⟩ := loc
  obtain ⟨prov, reg⟩ := r
  simp only at hloc hreg
  subst hloc hreg
  simp only [List.mem_cons, List.mem_singleton, forall_eq_or_imp, forall_eq, List.not_mem_nil,
    false_implies, implies_true, and_true] at h
  obtain ⟨ho, hp, hv, hr, ht, hi⟩ := h
  exact linkURL_of_populated org proj prov reg typ id ho hp hv hr ht hi

/-- C2 (witness): the literal example of the specification. -/
theorem linkURL_format_witness :
    (∀ x ∈ ["org1", "proj1", "aws", "us-west-2", "cluster", "c1"], x ≠ "") ∧
    linkURL (some exampleLink) =
      .ret ("/organization/org1/project/proj1/provider/aws/region/us-west-2/cluster/c1",
        none) :=
  ⟨by decide,
   (linkURL_format exampleLink
     { OrganizationID := "org1", ProjectID := "proj1",
       Region := some { Provider := "aws", Region := "us-west-2" } }
     { Provider := "aws", Region := "us-west-2" } rfl rfl (by decide)).trans (by decide)⟩

/-- C3: whenever `linkURL` returns an error, its message is the message of the
first failing check in the order of the specification (link absent, location
absent, project ID, organization ID, provider, region, resource type, resource
ID); and whenever some check fails and `linkURL` returns at all, it returns
the empty string and the error of the first failing check. -/
theorem linkURL_error_is_first_failed_check (l : Option HashicorpCloudLocationLink)
    (msg : String) :
    (∀ s, linkURL l = .ret (s, some msg) → specFirstFailure l = some msg) ∧
    (specFirstFailure l = some msg → linkURL l ≠ .panic →
      linkURL l = .ret ("", some msg)) := by
  rcases l with _ | ⟨t, i, _ | ⟨o, p, _ | ⟨pr, r⟩⟩⟩
  · simp [linkURL, specFirstFailure, specChecks]
  · simp [linkURL, specFirstFailure, specChecks]
  · by_cases hp : p = "" <;> by_cases ho : o = "" <;>
      simp [linkURL, specFirstFailure, specChecks, hp, ho]
  · by_cases hp : p = "" <;> by_cases ho : o = "" <;> by_cases hv : pr = "" <;>
      by_cases hr : r = "" <;> by_cases ht : t = "" <;> by_cases hi : i = "" <;>
      simp [linkURL, specFirstFailure, specChecks, hp, ho, hv, hr, ht, hi]

/-- C3 (witness): each of the eight fields absent or empty in turn, the
others valid, gives the message of that field. -/
theorem linkURL_error_is_first_failed_check_witness :
    (specFirstFailure none = some "nil link" ∧
      linkURL none = .ret ("", some "nil link")) ∧
    (specFirstFailure (some ⟨"cluster", "c1", none⟩) = some "link missing Location" ∧
      linkURL (some ⟨"cluster", "c1", none⟩) = .ret ("", some "link missing Location")) ∧
    (specFirstFailure (some (fullLink "org1" "" "aws" "us-west-2" "cluster" "c1")) =
        some "link missing project ID" ∧
      linkURL (some (fullLink "org1" "" "aws" "us-west-2" "cluster" "c1")) =
        .ret ("", some "link missing project ID")) ∧
    (specFirstFailure (some (fullLink "" "proj1" "aws" "us-west-2" "cluster" "c1")) =
        some "link missing organization ID" ∧
      linkURL (some (fullLink "" "proj1" "aws" "us-west-2" "cluster" "c1")) =
        .ret ("", some "link missing organization ID")) ∧
    (specFirstFailure (some (fullLink "org1" "proj1" "" "us-west-2" "cluster" "c1")) =
        some "link missing provider" ∧
      linkURL (some (fullLink "org1" "proj1" "" "us-west-2" "cluster" "c1")) =
        .ret ("", some "link missing provider")) ∧
    (specFirstFailure (some (fullLink "org1" "proj1" "aws" "" "cluster" "c1")) =
        some "link missing region" ∧
      linkURL (some (fullLink "org1" "proj1" "aws" "" "cluster" "c1")) =
        .ret ("", some "link missing region")) ∧
    (specFirstFailure (some (fullLink "org1" "proj1" "aws" "us-west-2" "" "c1")) =
        some "link missing resource type" ∧
      linkURL (some (fullLink "org1" "proj1" "aws" "us-west-2" "" "c1")) =
        .ret ("", some "link missing resource type")) ∧
    (specFirstFailure (some (fullLink "org1" "proj1" "aws" "us-west-2" "cluster" "")) =
        some "link missing resource ID" ∧
      linkURL (some (fullLink "org1" "proj1" "aws" "us-west-2" "cluster" "")) =
        .ret ("", some "link missing resource ID")) ∧
    (linkURL (some (fullLink "" "" "" "" "" "")) = .ret ("", some "link missing project ID") ∧
      specFirstFailure (some (fullLink "" "" "" "" "" "")) =
        some "link missing project ID") :=
  ⟨⟨by decide, (linkURL_error_is_first_failed_check _ _).2 (by decide) (by decide)⟩,
   ⟨by decide, (linkURL_error_is_first_failed_check _ _).2 (by decide) (by decide)⟩,
   ⟨by decide, (linkURL_error_is_first_failed_check _ _).2 (by decide) (by decide)⟩,
   ⟨by decide, (linkURL_error_is_first_failed_check _ _).2 (by decide) (by decide)⟩,
   ⟨by decide, (linkURL_error_is_first_failed_check _ _).2 (by decide) (by decide)⟩,
   ⟨by decide, (linkURL_error_is_first_failed_check _ _).2 (by decide) (by decide)⟩,
   ⟨by decide, (linkURL_error_is_first_failed_check _ _).2 (by decide) (by decide)⟩,
   ⟨by decide, (linkURL_error_is_first_failed_check _ _).2 (by decide) (by decide)⟩,
   ⟨by decide, (linkURL_error_is_first_failed_check _ _).1 "" (by decide)⟩⟩

/-- C4 (the code at the failing input): on a link whose location is present
with non-empty project and organization IDs and a nil `Region` pointer,
`linkURL` returns neither a string nor an error: it panics. -/
theorem linkURL_panics_on_nil_region : linkURL (some nilRegionLink) = .panic := by
  decide

/-- C5 (the code at the failing input): a string whose organization segment
contains `/` is accepted although it is not of the strict template (it has
eleven `/`), and the positional extraction then returns the literal labels as
field values; a string of the strict template with a newline in a segment is
rejected. -/
theorem parseLinkURL_accepts_slash_in_segment :
    parseLinkURL "/organization/a/b/project/p/provider/aws/region/r/t/i" =
      .ret (some (fullLink "a" "project" "provider" "region" "r" "t"), none) ∧
    (¬ ∃ a b c d e f : String, (∀ x ∈ [a, b, c, d, e, f], x ≠ "" ∧ '/' ∉ x.data) ∧
      "/organization/a/b/project/p/provider/aws/region/r/t/i" =
        "/organization/" ++ a ++ "/project/" ++ b ++ "/provider/" ++ c ++ "/region/" ++ d ++
          "/" ++ e ++ "/" ++ f) ∧
    parseLinkURL "/organization/o\ng/project/p/provider/aws/region/r/t/i" =
      .ret (none, some formatError) := by
  refine ⟨by decide, ?_, by decide⟩
  rintro ⟨a, b, c, d, e, f, h, hs⟩
  simp only [List.mem_cons, List.mem_singleton, forall_eq_or_imp, forall_eq, List.not_mem_nil,
    false_implies, implies_true, and_true] at h
  obtain ⟨⟨-, sa⟩, ⟨-, sb⟩, ⟨-, sc⟩, ⟨-, sd⟩, ⟨-, se⟩, ⟨-, sf⟩⟩ := h
  have hc := congrArg (fun t : String => t.data.count '/') hs
  have hd := sprintfLinkURL_data a b c d e f
  unfold sprintfLinkURL at hd
  simp only [hd, count_templateChars, List.count_eq_zero_of_not_mem sa,
    List.count_eq_zero_of_not_mem sb, List.count_eq_zero_of_not_mem sc,
    List.count_eq_zero_of_not_mem sd, List.count_eq_zero_of_not_mem se,
    List.count_eq_zero_of_not_mem sf] at hc
  revert hc
  decide

/-- C6: for every string that `parseLinkURL` accepts, the returned link has a
location and a region, and its organization ID, project ID, provider, region,
resource type and resource ID are the components at indices 2, 4, 6, 8, 9 and
10 of the string split on `/`. -/
theorem parseLinkURL_fields (s : String) (L : HashicorpCloudLocationLink)
    (h : parseLinkURL s = .ret (some L, none)) :
    ∃ loc r, L.Location = some loc ∧ loc.Region = some r ∧
      (stringsSplit s '/')[2]? = some loc.OrganizationID ∧
      (stringsSplit s '/')[4]? = some loc.ProjectID ∧
      (stringsSplit s '/')[6]? = some r.Provider ∧
      (stringsSplit s '/')[8]? = some r.Region ∧
      (stringsSplit s '/')[9]? = some L.Type_ ∧
      (stringsSplit s '/')[10]? = some L.ID := by
  cases hm : regexpMatchString linkPattern s with
  | false =>
    rw [parseLinkURL_of_not_match s hm] at h
    simp at h
  | true =>
    obtain ⟨c0, c1, c2, c3, c4, c5, c6, c7, c8, c9, c10, rest, hs, hp⟩ :=
      parseLinkURL_of_match s hm
    rw [hp] at h
    simp only [Exec.ret.injEq, Prod.mk.injEq, Option.some.injEq, and_true] at h
    subst h
    exact ⟨_, _, rfl, rfl, by simp [hs]⟩

/-- C6 (witness): the literal parse example of the specification. -/
theorem parseLinkURL_fields_witness :
    parseLinkURL "/organization/org1/project/proj1/provider/aws/region/us-west-2/cluster/c1" =
      .ret (some exampleLink, none) ∧
    ∃ loc r, exampleLink.Location = some loc ∧ loc.Region = some r ∧
      (stringsSplit
        "/organization/org1/project/proj1/provider/aws/region/us-west-2/cluster/c1" '/')[2]? =
          some loc.OrganizationID ∧
      (stringsSplit
        "/organization/org1/project/proj1/provider/aws/region/us-west-2/cluster/c1" '/')[4]? =
          some loc.ProjectID ∧
      (stringsSplit
        "/organization/org1/project/proj1/provider/aws/region/us-west-2/cluster/c1" '/')[6]? =
          some r.Provider ∧
      (stringsSplit
        "/organization/org1/project/proj1/provider/aws/region/us-west-2/cluster/c1" '/')[8]? =
          some r.Region ∧
      (stringsSplit
        "/organization/org1/project/proj1/provider/aws/region/us-west-2/cluster/c1" '/')[9]? =
          some exampleLink.Type_ ∧
      (stringsSplit
        "/organization/org1/project/proj1/provider/aws/region/us-west-2/cluster/c1" '/')[10]? =
          some exampleLink.ID :=
  ⟨by decide, parseLinkURL_fields _ _ (by decide)⟩

/-- C7 (the code at the failing input): a string with one more `/` inside its
last segment is accepted; it has eleven `/` and splits into twelve components,
and the component at index 11 is dropped. -/
theorem parseLinkURL_accepts_twelve_components :
    parseLinkURL
        "/organization/org1/project/proj1/provider/aws/region/us-west-2/cluster/c1/x" =
      .ret (some exampleLink, none) ∧
    (stringsSplit
        "/organization/org1/project/proj1/provider/aws/region/us-west-2/cluster/c1/x"
        '/').length = 12 ∧
    "/organization/org1/project/proj1/provider/aws/region/us-west-2/cluster/c1/x".data.count
        '/' = 11 := by
  decide

/-- C8 (the code at the failing input): the well-formed link URL of the
literal example followed by one more `/` is accepted, and parses to the link
of the example. -/
theorem parseLinkURL_accepts_trailing_slash :
    parseLinkURL "/organization/org1/project/proj1/provider/aws/region/us-west-2/cluster/c1" =
      .ret (some exampleLink, none) ∧
    parseLinkURL
        ("/organization/org1/project/proj1/provider/aws/region/us-west-2/cluster/c1" ++ "/") =
      .ret (some exampleLink, none) := by
  decide

/-- C9: every string that splits on `/` into fewer than eleven components,
that is, with fewer than ten `/`, is rejected: `parseLinkURL` returns no link
and the format error. -/
theorem parseLinkURL_rejects_short (s : String)
    (h : (stringsSplit s '/').length < 11 ∨ s.data.count '/' < 10) :
    parseLinkURL s = .ret (none, some
      "url is not in the correct format: /organization/\x7borg_id\x7d/project/\x7bproject_id\x7d/provider/\x7bprovider\x7d/region/\x7bregion\x7d/\x7btype\x7d/\x7bid\x7d") := by
  have hc : s.data.count '/' < 10 := by
    rcases h with h | h
    · rw [length_stringsSplit] at h
      omega
    · exact h
  cases hm : regexpMatchString linkPattern s with
  | false => exact parseLinkURL_of_not_match s hm
  | true =>
    have := count_of_match s hm
    omega

/-- C9 (witness): the empty string splits into one component and is rejected
with the format error. -/
theorem parseLinkURL_rejects_short_witness :
    ((stringsSplit "" '/').length < 11 ∨ "".data.count '/' < 10) ∧
    parseLinkURL "" = .ret (none, some
      "url is not in the correct format: /organization/\x7borg_id\x7d/project/\x7bproject_id\x7d/provider/\x7bprovider\x7d/region/\x7bregion\x7d/\x7btype\x7d/\x7bid\x7d") :=
  ⟨by decide, parseLinkURL_rejects_short "" (by decide)⟩

/-- C10 (the code at the failing input): a string whose organization segment
starts with `/` is accepted, the component at index 2 is empty, so the
returned link has an empty organization ID and `linkURL` fails on it. -/
theorem parseLinkURL_returns_empty_field :
    parseLinkURL "/organization//org1/project/proj1/provider/aws/region/us-west-2/cluster/c1" =
      .ret (some (fullLink "" "project" "provider" "region" "us-west-2" "cluster"), none) ∧
    linkURL (some (fullLink "" "project" "provider" "region" "us-west-2" "cluster")) =
      .ret ("", some "link missing organization ID") := by
  decide

/-! ## Further lemmas: components of a split, texts the pattern accepts -/

theorem not_sep_mem_of_mem_splitChars (sep : Char) (s p : List Char)
    (hp : p ∈ splitChars sep s) : sep ∉ p := by
  induction s generalizing p with
  | nil =>
    simp only [splitChars, List.mem_singleton] at hp
    subst hp
    simp
  | cons c cs ih =>
    unfold splitChars at hp
    by_cases hc : c = sep
    · rw [if_pos hc] at hp
      rcases List.mem_cons.1 hp with rfl | hp
      · simp
      · exact ih p hp
    · rw [if_neg hc] at hp
      cases hsp : splitChars sep cs with
      | nil => exact absurd hsp (splitChars_ne_nil sep cs)
      | cons x t =>
        rw [hsp] at hp ih
        rcases List.mem_cons.1 hp with rfl | hp
        · have hx := ih x (List.mem_cons_self _ _)
          simp only [List.mem_cons, not_or]
          exact ⟨Ne.symm hc, hx⟩
        · exact ih p (List.mem_cons_of_mem _ hp)

theorem mem_of_mem_splitChars (sep : Char) (s p : List Char) (hp : p ∈ splitChars sep s)
    (c : Char) (hc : c ∈ p) : c ∈ s := by
  induction s generalizing p with
  | nil =>
    simp only [splitChars, List.mem_singleton] at hp
    subst hp
    exact hc
  | cons d cs ih =>
    unfold splitChars at hp
    by_cases hd : d = sep
    · rw [if_pos hd] at hp
      rcases List.mem_cons.1 hp with rfl | hp
      · simp at hc
      · exact List.mem_cons_of_mem _ (ih p hp hc)
    · rw [if_neg hd] at hp
      cases hsp : splitChars sep cs with
      | nil => exact absurd hsp (splitChars_ne_nil sep cs)
      | cons x t =>
        rw [hsp] at hp ih
        rcases List.mem_cons.1 hp with rfl | hp
        · rcases List.mem_cons.1 hc with rfl | hc
          · exact List.mem_cons_self _ _
          · exact List.mem_cons_of_mem _ (ih x (List.mem_cons_self _ _) hc)
        · exact List.mem_cons_of_mem _ (ih p (List.mem_cons_of_mem _ hp) hc)

theorem newline_not_mem_templateChars_iff (a b c d e f : List Char) :
    '\n' ∉ templateChars a b c d e f ↔
      '\n' ∉ a ∧ '\n' ∉ b ∧ '\n' ∉ c ∧ '\n' ∉ d ∧ '\n' ∉ e ∧ '\n' ∉ f := by
  have h1 : '\n' ∉ "/organization/".data := by decide
  have h2 : '\n' ∉ "/project/".data := by decide
  have h3 : '\n' ∉ "/provider/".data := by decide
  have h4 : '\n' ∉ "/region/".data := by decide
  have h5 : '\n' ∉ "/".data := by decide
  simp only [templateChars, List.mem_append, not_or, h1, h2, h3, h4, h5, not_false_eq_true,
    true_and]

/-- A text the pattern accepts contains no newline. -/
theorem newline_not_mem_of_match (s : String) (h : regexpMatchString linkPattern s = true) :
    '\n' ∉ s.data := by
  obtain ⟨a, b, c, d, e, f, ha, hb, hc, hd, he, hf, hs⟩ :=
    (matchItems_linkPattern_iff s.data).1 h
  rw [hs, newline_not_mem_templateChars_iff]
  exact ⟨ha.2, hb.2, hc.2, hd.2, he.2, hf.2⟩

/-- A component of `strings.Split(s, "/")` contains no `/`, and no character
that is not in `s`. -/
theorem mem_stringsSplit (s c : String) (hc : c ∈ stringsSplit s '/') :
    '/' ∉ c.data ∧ ∀ x ∈ c.data, x ∈ s.data := by
  simp only [stringsSplit, List.mem_map] at hc
  obtain ⟨p, hp, rfl⟩ := hc
  exact ⟨not_sep_mem_of_mem_splitChars _ _ _ hp, mem_of_mem_splitChars _ _ _ hp⟩

/-- What a successful `parseLinkURL` tells: the pattern accepted the string and
the link holds the components at the six fixed indices. -/
theorem parseLinkURL_ok_inv (s : String) (L : HashicorpCloudLocationLink)
    (h : parseLinkURL s = .ret (some L, none)) :
    regexpMatchString linkPattern s = true ∧
    ∃ c0 c1 c2 c3 c4 c5 c6 c7 c8 c9 c10 rest,
      stringsSplit s '/' = c0 :: c1 :: c2 :: c3 :: c4 :: c5 :: c6 :: c7 :: c8 :: c9 ::
        c10 :: rest ∧
      L = fullLink c2 c4 c6 c8 c9 c10 := by
  cases hm : regexpMatchString linkPattern s with
  | false =>
    rw [parseLinkURL_of_not_match s hm] at h
    simp at h
  | true =>
    obtain ⟨c0, c1, c2, c3, c4, c5, c6, c7, c8, c9, c10, rest, hs, hp⟩ :=
      parseLinkURL_of_match s hm
    rw [hp] at h
    simp only [Exec.ret.injEq, Prod.mk.injEq, Option.some.injEq, and_true] at h
    exact ⟨rfl, c0, c1, c2, c3, c4, c5, c6, c7, c8, c9, c10, rest, hs, h.symm⟩

/-- What a successful `linkURL` tells on a link with location and region. -/
theorem linkURL_ok_inv (org proj prov reg typ id u : String)
    (h : linkURL (some (fullLink org proj prov reg typ id)) = .ret (u, none)) :
    (org ≠ "" ∧ proj ≠ "" ∧ prov ≠ "" ∧ reg ≠ "" ∧ typ ≠ "" ∧ id ≠ "") ∧
      u = sprintfLinkURL org proj prov reg typ id := by
  by_cases hp : proj = "" <;> by_cases ho : org = "" <;> by_cases hv : prov = "" <;>
    by_cases hr : reg = "" <;> by_cases ht : typ = "" <;> by_cases hi : id = "" <;>
    simp [linkURL, fullLink, hp, ho, hv, hr, ht, hi] at h
  exact ⟨⟨ho, hp, hv, hr, ht, hi⟩, h.symm⟩

/-- A component of the split of a text the pattern accepts contains neither
`/` nor a newline. -/
theorem component_clean (s c : String) (hm : regexpMatchString linkPattern s = true)
    (hc : c ∈ stringsSplit s '/') : '/' ∉ c.data ∧ '\n' ∉ c.data := by
  obtain ⟨h1, h2⟩ := mem_stringsSplit s c hc
  exact ⟨h1, fun hn => newline_not_mem_of_match s hm (h2 _ hn)⟩

theorem mk_ne_empty {a : List Char} (h : a ≠ []) : String.mk a ≠ "" := by
  intro he
  exact h (congrArg String.data he)

/-- A text the pattern accepts that has exactly ten `/` is the template of six
non-empty segments without `/`. -/
theorem template_of_match_of_count (s : String) (hm : regexpMatchString linkPattern s = true)
    (hc : s.data.count '/' = 10) :
    ∃ a b c d e f : List Char,
      (a ≠ [] ∧ b ≠ [] ∧ c ≠ [] ∧ d ≠ [] ∧ e ≠ [] ∧ f ≠ []) ∧
      ('/' ∉ a ∧ '/' ∉ b ∧ '/' ∉ c ∧ '/' ∉ d ∧ '/' ∉ e ∧ '/' ∉ f) ∧
      s.data = templateChars a b c d e f := by
  obtain ⟨a, b, c, d, e, f, ha, hb, hc', hd, he, hf, hs⟩ :=
    (matchItems_linkPattern_iff s.data).1 hm
  rw [hs, count_templateChars] at hc
  refine ⟨a, b, c, d, e, f, ⟨ha.1, hb.1, hc'.1, hd.1, he.1, hf.1⟩, ?_, hs⟩
  refine ⟨?_, ?_, ?_, ?_, ?_, ?_⟩ <;>
  · apply List.count_eq_zero.1
    omega

/-! ## Claims, continued -/

/-- C11: for every string `s` that `parseLinkURL` accepts with result `L`,
whenever `linkURL L` returns a string `u`, `parseLinkURL u` succeeds and
returns `L` again. -/
theorem parseLinkURL_output_roundtrip (s u : String) (L : HashicorpCloudLocationLink)
    (hp : parseLinkURL s = .ret (some L, none)) (hu : linkURL (some L) = .ret (u, none)) :
    parseLinkURL u = .ret (some L, none) := by
  obtain ⟨hm, c0, c1, c2, c3, c4, c5, c6, c7, c8, c9, c10, rest, hs, rfl⟩ :=
    parseLinkURL_ok_inv s L hp
  obtain ⟨⟨ho, hpj, hv, hr, ht, hi⟩, rfl⟩ := linkURL_ok_inv _ _ _ _ _ _ _ hu
  have k2 := component_clean s c2 hm (by rw [hs]; simp)
  have k4 := component_clean s c4 hm (by rw [hs]; simp)
  have k6 := component_clean s c6 hm (by rw [hs]; simp)
  have k8 := component_clean s c8 hm (by rw [hs]; simp)
  have k9 := component_clean s c9 hm (by rw [hs]; simp)
  have k10 := component_clean s c10 hm (by rw [hs]; simp)
  exact parseLinkURL_sprintfLinkURL c2 c4 c6 c8 c9 c10 ho hpj hv hr ht hi
    k2.1 k4.1 k6.1 k8.1 k9.1 k10.1 k2.2 k4.2 k6.2 k8.2 k9.2 k10.2

/-- C11 (witness): the string of the literal example followed by `/x` is
accepted and parses to the link of the example; `linkURL` turns that link into
the string of the example, which parses to the same link. -/
theorem parseLinkURL_output_roundtrip_witness :
    parseLinkURL
        "/organization/org1/project/proj1/provider/aws/region/us-west-2/cluster/c1/x" =
      .ret (some exampleLink, none) ∧
    linkURL (some exampleLink) =
      .ret ("/organization/org1/project/proj1/provider/aws/region/us-west-2/cluster/c1",
        none) ∧
    parseLinkURL "/organization/org1/project/proj1/provider/aws/region/us-west-2/cluster/c1" =
      .ret (some exampleLink, none) :=
  ⟨by decide, by decide,
   parseLinkURL_output_roundtrip
     "/organization/org1/project/proj1/provider/aws/region/us-west-2/cluster/c1/x"
     "/organization/org1/project/proj1/provider/aws/region/us-west-2/cluster/c1"
     exampleLink (by decide) (by decide)⟩

/-- C12: `newLink` performs no validation: for every location (absent or
incomplete ones included) and every two strings, it returns a link whose type,
ID and location are the three arguments. -/
theorem newLink_fields (loc : Option HashicorpCloudLocationLocation) (svcType id : String) :
    ∃ L, newLink loc svcType id = some L ∧
      L.Type_ = svcType ∧ L.ID = id ∧ L.Location = loc :=
  ⟨_, rfl, rfl, rfl, rfl⟩

/-- C13: a string the pattern accepts has at least ten `/`, so it splits into
at least eleven components and none of the index expressions at 2, 4, 6, 8, 9
and 10 is out of range; hence `parseLinkURL` never panics: on every string it
returns a link and no error, or no link and the format error. -/
theorem parseLinkURL_never_panics (s : String) :
    (regexpMatchString linkPattern s = true →
      10 ≤ s.data.count '/' ∧ 11 ≤ (stringsSplit s '/').length ∧
        ∀ i ∈ [2, 4, 6, 8, 9, 10], index (stringsSplit s '/') i ≠ .panic) ∧
    parseLinkURL s ≠ .panic ∧
    ((∃ L, parseLinkURL s = .ret (some L, none)) ∨
      parseLinkURL s = .ret (none, some formatError)) := by
  cases hm : regexpMatchString linkPattern s with
  | false =>
    have hp := parseLinkURL_of_not_match s hm
    refine ⟨by simp, ?_, Or.inr hp⟩
    rw [hp]
    simp
  | true =>
    obtain ⟨c0, c1, c2, c3, c4, c5, c6, c7, c8, c9, c10, rest, hs, hp⟩ :=
      parseLinkURL_of_match s hm
    refine ⟨fun _ => ⟨count_of_match s hm, ?_, ?_⟩, ?_, Or.inl ⟨_, hp⟩⟩
    · rw [hs]
      simp
    · rw [hs]
      simp [index]
    · rw [hp]
      simp

/-- C13 (witness): the string of the literal example is accepted, has ten `/`
and eleven components, and `parseLinkURL` returns the link of the example. -/
theorem parseLinkURL_never_panics_witness :
    regexpMatchString linkPattern
        "/organization/org1/project/proj1/provider/aws/region/us-west-2/cluster/c1" = true ∧
    (10 ≤ "/organization/org1/project/proj1/provider/aws/region/us-west-2/cluster/c1".data.count
        '/' ∧
      11 ≤ (stringsSplit
        "/organization/org1/project/proj1/provider/aws/region/us-west-2/cluster/c1"
        '/').length ∧
      ∀ i ∈ [2, 4, 6, 8, 9, 10], index (stringsSplit
        "/organization/org1/project/proj1/provider/aws/region/us-west-2/cluster/c1" '/') i ≠
          .panic) :=
  ⟨by decide, (parseLinkURL_never_panics _).1 (by decide)⟩

/-- The inputs on which `linkURL` panics: the link and its location are
present, the project and organization IDs are non-empty, and the `Region`
pointer is nil. -/
theorem linkURL_panic_iff (l : Option HashicorpCloudLocationLink) :
    linkURL l = .panic ↔
      ∃ L loc, l = some L ∧ L.Location = some loc ∧ loc.Region = none ∧
        loc.ProjectID ≠ "" ∧ loc.OrganizationID ≠ "" := by
  rcases l with _ | ⟨t, i, _ | ⟨o, p, _ | ⟨pr, r⟩⟩⟩
  · simp [linkURL]
  · simp [linkURL]
  · by_cases hp : p = "" <;> by_cases ho : o = "" <;> simp [linkURL, hp, ho]
  · by_cases hp : p = "" <;> by_cases ho : o = "" <;> by_cases hv : pr = "" <;>
      by_cases hr : r = "" <;> by_cases ht : t = "" <;> by_cases hi : i = "" <;>
      simp [linkURL, hp, ho, hv, hr, ht, hi]

/-- C14 (the code at the failing input): on the link that `newLink` builds
from a location with organization `org1`, project `proj1` and a nil `Region`
pointer, `linkURL` returns neither a string nor an error: reading
`l.Location.Region.Provider` dereferences the nil pointer. -/
theorem linkURL_newLink_nil_region_panics :
    nilRegionLocation.ProjectID ≠ "" ∧ nilRegionLocation.OrganizationID ≠ "" ∧
    nilRegionLocation.Region = none ∧
    linkURL (newLink (some nilRegionLocation) "cluster" "c1") = .panic ∧
    ¬ ∃ v, linkURL (newLink (some nilRegionLocation) "cluster" "c1") = .ret v := by
  refine ⟨by decide, by decide, rfl, by decide, ?_⟩
  rintro ⟨v, hv⟩
  have hpanic : linkURL (newLink (some nilRegionLocation) "cluster" "c1") = .panic := by
    decide
  rw [hpanic] at hv
  simp at hv

/-- C15: for every link whose location and region are present and whose six
leaf fields are non-empty and contain neither `/` nor a newline, `linkURL`
succeeds and `parseLinkURL` of its result succeeds and returns the link; and
this domain is exact: a link with location and region that survives the round
trip has six non-empty fields without `/` and without newline. -/
theorem roundtrip_exact_domain (L : HashicorpCloudLocationLink)
    (loc : HashicorpCloudLocationLocation) (r : HashicorpCloudLocationRegion)
    (hloc : L.Location = some loc) (hreg : loc.Region = some r) :
    ((∀ x ∈ [loc.OrganizationID, loc.ProjectID, r.Provider, r.Region, L.Type_, L.ID],
        x ≠ "" ∧ '/' ∉ x.data ∧ '\n' ∉ x.data) →
      ∃ u, linkURL (some L) = .ret (u, none) ∧ parseLinkURL u = .ret (some L, none)) ∧
    ((∃ u, linkURL (some L) = .ret (u, none) ∧ parseLinkURL u = .ret (some L, none)) →
      ∀ x ∈ [loc.OrganizationID, loc.ProjectID, r.Provider, r.Region, L.Type_, L.ID],
        x ≠ "" ∧ '/' ∉ x.data ∧ '\n' ∉ x.data) := by
  obtain ⟨typ, id, _⟩ := L
  obtain ⟨org, proj, _⟩ := loc
  obtain ⟨prov, reg⟩ := r
  simp only at hloc hreg
  subst hloc hreg
  simp only [List.mem_cons, List.mem_singleton, forall_eq_or_imp, forall_eq, List.not_mem_nil,
    false_implies, implies_true, and_true]
  constructor
  · rintro ⟨⟨ho, so, no⟩, ⟨hp, sp, np⟩, ⟨hv, sv, nv⟩, ⟨hr, sr, nr⟩, ⟨ht, st, nt⟩, ⟨hi, si, ni⟩⟩
    exact ⟨sprintfLinkURL org proj prov reg typ id,
      linkURL_of_populated org proj prov reg typ id ho hp hv hr ht hi,
      parseLinkURL_sprintfLinkURL org proj prov reg typ id ho hp hv hr ht hi so sp sv sr st si
        no np nv nr nt ni⟩
  · rintro ⟨u, hu, hp⟩
    obtain ⟨⟨ho, hpj, hv, hr, ht, hi⟩, -⟩ := linkURL_ok_inv org proj prov reg typ id u hu
    obtain ⟨hm, c0, c1, c2, c3, c4, c5, c6, c7, c8, c9, c10, rest, hs, hL⟩ :=
      parseLinkURL_ok_inv u _ hp
    simp only [fullLink, HashicorpCloudLocationLink.mk.injEq, Option.some.injEq,
      HashicorpCloudLocationLocation.mk.injEq, HashicorpCloudLocationRegion.mk.injEq] at hL
    obtain ⟨rfl, rfl, rfl, rfl, rfl, rfl⟩ := hL
    have k2 := component_clean u org hm (by rw [hs]; simp)
    have k4 := component_clean u proj hm (by rw [hs]; simp)
    have k6 := component_clean u prov hm (by rw [hs]; simp)
    have k8 := component_clean u reg hm (by rw [hs]; simp)
    have k9 := component_clean u typ hm (by rw [hs]; simp)
    have k10 := component_clean u id hm (by rw [hs]; simp)
    exact ⟨⟨ho, k2⟩, ⟨hpj, k4⟩, ⟨hv, k6⟩, ⟨hr, k8⟩, ⟨ht, k9⟩, ⟨hi, k10⟩⟩

/-- C15 (witness): the link of the literal example is in the domain and
survives the round trip. -/
theorem roundtrip_exact_domain_witness :
    (exampleLink.Location = some (HashicorpCloudLocationLocation.mk "org1" "proj1"
        (some (HashicorpCloudLocationRegion.mk "aws" "us-west-2")))) ∧
    (∀ x ∈ ["org1", "proj1", "aws", "us-west-2", "cluster", "c1"],
      x ≠ "" ∧ '/' ∉ x.data ∧ '\n' ∉ x.data) ∧
    ∃ u, linkURL (some exampleLink) = .ret (u, none) ∧
      parseLinkURL u = .ret (some exampleLink, none) :=
  ⟨rfl, by decide,
   (roundtrip_exact_domain exampleLink
     (HashicorpCloudLocationLocation.mk "org1" "proj1"
       (some (HashicorpCloudLocationRegion.mk "aws" "us-west-2")))
     (HashicorpCloudLocationRegion.mk "aws" "us-west-2") rfl rfl).1 (by decide)⟩

/-- C16: for every string `s` that `parseLinkURL` accepts and that contains
exactly ten `/`, `linkURL` of the parsed link succeeds and returns `s`. -/
theorem linkURL_parseLinkURL_string_roundtrip (s : String) (L : HashicorpCloudLocationLink)
    (hp : parseLinkURL s = .ret (some L, none)) (hc : s.data.count '/' = 10) :
    linkURL (some L) = .ret (s, none) := by
  obtain ⟨hm, -⟩ := parseLinkURL_ok_inv s L hp
  obtain ⟨a, b, c, d, e, f, ⟨ha, hb, hc', hd, he, hf⟩, ⟨sa, sb, sc, sd, se, sf⟩, hs⟩ :=
    template_of_match_of_count s hm hc
  have hsplit : stringsSplit s '/' =
      ["", "organization", String.mk a, "project", String.mk b, "provider", String.mk c,
        "region", String.mk d, String.mk e, String.mk f] := by
    unfold stringsSplit
    rw [hs, splitChars_templateChars a b c d e f sa sb sc sd se sf]
    rfl
  have hp2 := parseLinkURL_of_split s _ _ _ _ _ _ _ _ _ _ _ [] hm hsplit
  rw [hp] at hp2
  simp only [Exec.ret.injEq, Prod.mk.injEq, Option.some.injEq, and_true] at hp2
  subst hp2
  have hs2 : sprintfLinkURL (String.mk a) (String.mk b) (String.mk c) (String.mk d)
      (String.mk e) (String.mk f) = s := by
    apply String.ext
    rw [sprintfLinkURL_data, hs]
  rw [linkURL_of_populated _ _ _ _ _ _ (mk_ne_empty ha) (mk_ne_empty hb) (mk_ne_empty hc')
    (mk_ne_empty hd) (mk_ne_empty he) (mk_ne_empty hf), hs2]

/-- C16 (witness): the string of the literal example is accepted, has ten `/`,
and `linkURL` of the parsed link returns it. -/
theorem linkURL_parseLinkURL_string_roundtrip_witness :
    parseLinkURL "/organization/org1/project/proj1/provider/aws/region/us-west-2/cluster/c1" =
      .ret (some exampleLink, none) ∧
    "/organization/org1/project/proj1/provider/aws/region/us-west-2/cluster/c1".data.count
      '/' = 10 ∧
    linkURL (some exampleLink) =
      .ret ("/organization/org1/project/proj1/provider/aws/region/us-west-2/cluster/c1",
        none) :=
  ⟨by decide, by decide,
   linkURL_parseLinkURL_string_roundtrip
     "/organization/org1/project/proj1/provider/aws/region/us-west-2/cluster/c1" exampleLink
     (by decide) (by decide)⟩

end Provider
